import Mathlib

/-!
# Verification of the ollama-amazon-parser extraction-and-normalization pipeline

This file gives a shallow embedding of the pipeline implemented by the
repository (the section extractor's product-details merge, the response
resolver's JSON-span extraction and field normalization, the rolls coercion,
the block-page heuristic, and the validator) and proves or refutes the
specification claims about it.

JavaScript values parsed from JSON are modelled by `JVal` (JS numbers are
modelled as rationals; `undefined` is modelled as an absent key, i.e. a
`none` result of property lookup, which matches objects produced by
`JSON.parse`).
-/

namespace AmazonParser

/-- Model of a JSON value as produced by `JSON.parse` in JavaScript. -/
inductive JVal where
  | null : JVal
  | bool : Bool → JVal
  | num : ℚ → JVal
  | str : String → JVal
  | arr : List JVal → JVal
  | obj : List (String × JVal) → JVal

/-- A JS object: association list of fields (no duplicate keys after
`JSON.parse`, insertion order preserved). -/
abbrev JObj := List (String × JVal)

/-- The left-brace character, spelled via its code point. -/
def lb : Char := '\x7b'

/-- The right-brace character, spelled via its code point. -/
def rb : Char := '\x7d'

/-- JavaScript truthiness of a value (NaN is not modelled; `arr`/`obj` are
always truthy, as in JS). -/
def jsTruthy : JVal → Bool
  | .null => false
  | .bool b => b
  | .num q => q ≠ 0
  | .str s => s ≠ ""
  | .arr _ => true
  | .obj _ => true

/-- Property read `o[k]` on an object: `none` models `undefined`. -/
def jget {α : Type} : List (String × α) → String → Option α
  | [], _ => none
  | (k, v) :: rest, key => if key = k then some v else jget rest key

/-- Property write `o[k] = v`: overwrite in place if the key exists
(insertion order kept), else append — JS object assignment semantics. -/
def jset {α : Type} : List (String × α) → String → α → List (String × α)
  | [], key, v => [(key, v)]
  | (k, w) :: rest, key, v =>
      if key = k then (k, v) :: rest else (k, w) :: jset rest key v

/-- Truthiness of a property access (`undefined` is falsy). -/
def getTruthy (o : JObj) (k : String) : Bool :=
  match jget o k with
  | some v => jsTruthy v
  | none => false

/-- Truthiness of a nullable JS string variable (modelled as `Option String`;
`null`/`undefined` and the empty string are falsy). -/
def truthyOpt : Option String → Bool
  | some s => s ≠ ""
  | none => false

/-- Property read on an arbitrary value, as used on the elements of the
`rolls` array: on an object it is a field lookup, on other non-null values
it yields `undefined`.  (Access on JS `null` throws; that case is handled
separately by the caller `cleanRoll`.) -/
def getProp : JVal → String → Option JVal
  | .obj fs, k => jget fs k
  | _, _ => none

theorem jget_jset_self {α : Type} (o : List (String × α)) (k : String) (v : α) :
    jget (jset o k v) k = some v := by
  induction o with
  | nil => simp [jget, jset]
  | cons hd tl ih =>
      obtain ⟨k', w⟩ := hd
      by_cases h : k = k'
      · simp [jget, jset, h]
      · simp [jget, jset, h, ih]

theorem jget_jset_ne {α : Type} (o : List (String × α)) (k k' : String) (v : α) (h : k ≠ k') :
    jget (jset o k' v) k = jget o k := by
  induction o with
  | nil => simp [jget, jset, h]
  | cons hd tl ih =>
      obtain ⟨k₀, w⟩ := hd
      by_cases h0 : k' = k₀
      · subst h0
        simp [jget, jset, h]
      · by_cases h1 : k = k₀ <;> simp [jget, jset, h0, h1, ih]

/-!
## Section extractor: the product-details tables

`extractProductText` (parser, lines 57-95) extracts `heading: value` pairs
from up to two containers: the primary `poExpander` table and the fallback
`prodDetails` table.  The regex location of the containers/tables/rows/cells
is abstracted here: the model starts from the `<td>` cell contents of each
matched table's rows; what it models exactly is the per-row processing
(tag-stripping, trimming, the non-empty guard) and the merge of the two
tables into one mapping by plain JS property assignment.
-/

/-- Consume the rest of a tag after `<` and at least one non-`>` character:
chars up to and including the first `>`, returning the remainder. -/
def tagRest : List Char → Option (List Char)
  | [] => none
  | c :: rest => if c = '>' then some rest else tagRest rest

/-- Match a tag body after a `<`: `[^>]+>` (at least one non-`>` char, then
`>`); returns the remainder after the tag, or `none` if no tag starts here. -/
def tagAfterLt : List Char → Option (List Char)
  | [] => none
  | c :: rest => if c = '>' then none else tagRest rest

/-- One fuelled pass of tag deletion; the fuel (an upper bound on the number
of scanning steps, each of which consumes at least one character) makes the
recursion structural so that the definition evaluates in the kernel. -/
def stripTagsFuel : ℕ → List Char → List Char
  | 0, cs => cs
  | _ + 1, [] => []
  | n + 1, c :: rest =>
      if c = '<' then
        match tagAfterLt rest with
        | some r => stripTagsFuel n r
        | none => c :: stripTagsFuel n rest
      else c :: stripTagsFuel n rest

/-- `s.replace(/<[^>]+>/g, '')`: delete every leftmost non-overlapping
`<[^>]+>` tag; a `<` that starts no complete tag is kept.  Each scanning
step consumes at least one character, so `cs.length` fuel always suffices. -/
def stripTags (cs : List Char) : List Char :=
  stripTagsFuel cs.length cs

/-- JS `String.prototype.trim`: drop leading and trailing whitespace
(modelled with `Char.isWhitespace`, which covers the ASCII whitespace the
pipeline's regexes and fences use). -/
def jsTrim (cs : List Char) : List Char :=
  ((cs.dropWhile Char.isWhitespace).reverse.dropWhile Char.isWhitespace).reverse

/-- One table row, given as the inner contents of its `<td>` cells. -/
abbrev Row := List (List Char)

/-- Heading and value of a row with at least two cells: first cell and second
cell, tag-stripped and trimmed (lines 64-67 / 85-88). -/
def rowHV : Row → Option (String × String)
  | c0 :: c1 :: _ => some (⟨jsTrim (stripTags c0)⟩, ⟨jsTrim (stripTags c1)⟩)
  | _ => none

/-- Process one row into the details mapping: `productDetails[heading] =
value` when both heading and value are non-empty (lines 63-72 / 84-93). -/
def addRow (d : List (String × String)) (r : Row) : List (String × String) :=
  match rowHV r with
  | some (h, v) => if h ≠ "" ∧ v ≠ "" then jset d h v else d
  | none => d

/-- The `productDetails` mapping built by `extractProductText` steps 4 and 5:
fold the primary (`poExpander`) table's rows into a fresh empty mapping, then
fold the fallback (`prodDetails`) table's rows into the same mapping (which
is created empty at that point if the primary container was absent).
`none` for a container argument models that container (or its inner table)
not matching at all. -/
def extractProductDetails (primary fallback : Option (List Row)) :
    Option (List (String × String)) :=
  let d0 : Option (List (String × String)) :=
    match primary with
    | some rows => some (rows.foldl addRow [])
    | none => none
  match fallback with
  | some rows => some (rows.foldl addRow (d0.getD []))
  | none => d0

/-- The value bound to heading `hKey` by the LAST row of `rows` that yields
heading `hKey` with a non-empty heading and value (claim-side vocabulary for
describing the overwriting fold). -/
def lastRowVal (hKey : String) : List Row → Option String
  | [] => none
  | r :: rows =>
      match lastRowVal hKey rows with
      | some v => some v
      | none =>
          match rowHV r with
          | some (h, v) => if h = hKey ∧ h ≠ "" ∧ v ≠ "" then some v else none
          | none => none

theorem jget_foldl_addRow (hKey : String) :
    ∀ (rows : List Row) (d : List (String × String)),
    jget (rows.foldl addRow d) hKey =
      (match lastRowVal hKey rows with
       | some v => some v
       | none => jget d hKey) := by
  intro rows
  induction rows with
  | nil => intro d; rfl
  | cons r rows ih =>
      intro d
      rw [List.foldl_cons, ih (addRow d r)]
      cases hlast : lastRowVal hKey rows with
      | some v => simp [lastRowVal, hlast]
      | none =>
          simp only [lastRowVal, hlast]
          unfold addRow
          cases hr : rowHV r with
          | none => rfl
          | some hv =>
              obtain ⟨h, v⟩ := hv
              by_cases hg : h ≠ "" ∧ v ≠ ""
              · by_cases heq : h = hKey
                · subst heq
                  simp [hg, jget_jset_self]
                · have : ¬ (h = hKey ∧ h ≠ "" ∧ v ≠ "") := fun hc => heq hc.1
                  simp [hg, this, heq, jget_jset_ne d hKey h v (fun hc => heq hc.symm)]
              · have : ¬ (h = hKey ∧ h ≠ "" ∧ v ≠ "") := fun hc => hg hc.2
                simp [hg, this]

/-- Claim C1 as stated: whenever the primary table yields a row with heading
`h` (non-empty heading/value) and the fallback table yields a row with the
same heading, the merged mapping retains the primary table's value
(first-source-wins). -/
def claimC1 : Prop :=
  ∀ (pRows fRows : List Row) (r1 r2 : Row) (h v1 v2 : String),
    r1 ∈ pRows → r2 ∈ fRows →
    rowHV r1 = some (h, v1) → rowHV r2 = some (h, v2) →
    h ≠ "" → v1 ≠ "" → v2 ≠ "" →
    (extractProductDetails (some pRows) (some fRows)).bind (fun d => jget d h) = some v1

/-- C1 is false on the code: with heading `Brand` bound to `Alpha` in the
primary table and to `Beta` in the fallback table, the merged mapping holds
`Beta` — the fallback table's assignment overwrites the primary entry. -/
theorem c1_counterexample : ¬ claimC1 := by
  intro hc
  have h := hc [["Brand".toList, "Alpha".toList]] [["Brand".toList, "Beta".toList]]
    ["Brand".toList, "Alpha".toList] ["Brand".toList, "Beta".toList]
    "Brand" "Alpha" "Beta"
    (by decide) (by decide) (by decide) (by decide) (by decide) (by decide) (by decide)
  exact absurd h (by decide)

/-- C1 amended: the merge is last-source-wins.  For every heading, the merged
mapping binds it to the value of the last fallback-table row yielding that
heading, and only when no fallback row yields it does the (last) primary-table
value survive. -/
theorem c1_amended (pRows fRows : List Row) (hKey : String) :
    (extractProductDetails (some pRows) (some fRows)).bind (fun d => jget d hKey) =
      (match lastRowVal hKey fRows with
       | some v => some v
       | none => lastRowVal hKey pRows) := by
  show jget (fRows.foldl addRow (pRows.foldl addRow [])) hKey = _
  rw [jget_foldl_addRow hKey fRows (pRows.foldl addRow []),
    jget_foldl_addRow hKey pRows []]
  cases lastRowVal hKey fRows with
  | some v => rfl
  | none =>
      cases lastRowVal hKey pRows with
      | some v => rfl
      | none => rfl

/-!
## Response resolver: normalization of the parsed completion object

`parseAmazonProduct` (parser, lines 268-337): ASIN/URL back-filling, the
images coercion, the block-page heuristic, the `cleanedData` literal and the
rolls coercion.  Errors thrown by this stage are modelled by `JErr`.
-/

/-- The distinguished failures of the resolve stage. -/
inductive JErr where
  | noJsonFound
  | blocked
  | typeError
  deriving DecidableEq

/-- `x || d` applied to a property-access result (`undefined` is falsy). -/
def truthyOrD (v : Option JVal) (d : JVal) : JVal :=
  match v with
  | some x => if jsTruthy x then x else d
  | none => d

/-- `x !== undefined ? x : null`. -/
def presentOrNull (v : Option JVal) : JVal :=
  match v with
  | some x => x
  | none => .null

/-- `Array.isArray(x) ? x : (x === null ? null : [])` — the three-way rule of
lines 317-318. -/
def threeWayArr (v : Option JVal) : JVal :=
  match v with
  | some (.arr xs) => .arr xs
  | some .null => .null
  | _ => .arr []

/-- `Array.isArray(x) ? x : []` (images, line 320). -/
def arrOrEmpty (v : Option JVal) : JVal :=
  match v with
  | some (.arr xs) => .arr xs
  | _ => .arr []

/-- `typeof x === 'number' ? x : d`. -/
def numOrD (v : Option JVal) (d : JVal) : JVal :=
  match v with
  | some (.num q) => .num q
  | _ => d

/-- `typeof x === 'boolean' ? x : d`. -/
def boolOrD (v : Option JVal) (d : JVal) : JVal :=
  match v with
  | some (.bool b) => .bool b
  | _ => d

/-- The canonical product URL synthesized from an ASIN. -/
def dpUrl (a : String) : String := "https://www.amazon.com/dp/" ++ a

/-- The `productAsin ? dpUrl(productAsin) : null` fallback of line 321. -/
def urlFallback : Option String → JVal
  | some a => if a ≠ "" then .str (dpUrl a) else .null
  | none => .null

/-- A nullable JS string variable as a JS value. -/
def optStrVal : Option String → JVal
  | some s => .str s
  | none => .null

/-- `Array.isArray` on a property-access result. -/
def isArrJ : Option JVal → Bool
  | some (.arr _) => true
  | _ => false

/-- Lines 268-271: `if (!productData.asin && productAsin) productData.asin =
productAsin`. -/
def backfillAsin (pd : JObj) (productAsin : Option String) : JObj :=
  if ¬ getTruthy pd "asin" ∧ truthyOpt productAsin then
    jset pd "asin" (optStrVal productAsin)
  else pd

/-- Lines 273-278: back-fill `url` from `productUrl` when falsy, or else
from the canonical ASIN URL. -/
def backfillUrl (pd : JObj) (productAsin productUrl : Option String) : JObj :=
  if ¬ getTruthy pd "url" ∧ truthyOpt productUrl then
    jset pd "url" (optStrVal productUrl)
  else if ¬ getTruthy pd "url" ∧ truthyOpt productAsin then
    jset pd "url" (.str (dpUrl (productAsin.getD "")))
  else pd

/-- Lines 280-283: coerce `images` to an empty array when not an array. -/
def coerceImages (pd : JObj) : JObj :=
  if isArrJ (jget pd "images") then pd else jset pd "images" (.arr [])

/-- Lines 268-283: the three mutations applied to the parsed object before
the block-page check and the `cleanedData` literal. -/
def backfill (pd : JObj) (productAsin productUrl : Option String) : JObj :=
  coerceImages (backfillUrl (backfillAsin pd productAsin) productAsin productUrl)

/-- `x === null` on a property-access result (`undefined !== null` in JS, so
an absent key yields `false`). -/
def isExplicitNull : Option JVal → Bool
  | some .null => true
  | _ => false

/-- Line 293: `productData.title || productData.price !== null ||
productData.brand`. -/
def hasProductData (pd : JObj) : Bool :=
  getTruthy pd "title" || !(isExplicitNull (jget pd "price")) || getTruthy pd "brand"

/-- Bool-valued `needle.isPrefixOf hay`-based substring containment,
modelling JS `String.prototype.includes`. -/
def hasSub (needle : List Char) : List Char → Bool
  | [] => needle.isEmpty
  | c :: rest => needle.isPrefixOf (c :: rest) || hasSub needle rest

/-- Line 298-299: the block-page phrase check on the lowercased raw HTML. -/
def checkBlocked (html : List Char) : Bool :=
  let l := html.map Char.toLower
  hasSub "continue shopping".toList l || hasSub "click the button below".toList l

/-- The `cleanedData` object literal of lines 305-322, built from the
(already back-filled) parsed object and the `productAsin` context. -/
def cleanedData (pd : JObj) (productAsin : Option String) : JObj :=
  [("asin", truthyOrD (jget pd "asin") .null),
   ("type", truthyOrD (jget pd "type") .null),
   ("title", truthyOrD (jget pd "title") .null),
   ("price", presentOrNull (jget pd "price")),
   ("brand", truthyOrD (jget pd "brand") .null),
   ("description", truthyOrD (jget pd "description") .null),
   ("size", truthyOrD (jget pd "size") .null),
   ("quantity", presentOrNull (jget pd "quantity")),
   ("dimensions", truthyOrD (jget pd "dimensions") .null),
   ("rollLength", presentOrNull (jget pd "rollLength")),
   ("rollWidth", presentOrNull (jget pd "rollWidth")),
   ("printNames", threeWayArr (jget pd "printNames")),
   ("rolls", threeWayArr (jget pd "rolls")),
   ("thumbnail", truthyOrD (jget pd "thumbnail") .null),
   ("images", arrOrEmpty (jget pd "images")),
   ("url", truthyOrD (jget pd "url") (urlFallback productAsin))]

/-- The JS number `index + 1` for a 0-based array index, built directly as a
rational so that it evaluates in the kernel. -/
def idxNum (i : ℕ) : ℚ := ⟨Int.ofNat (i + 1), 1, Nat.one_ne_zero, Nat.coprime_one_right _⟩

/-- Lines 326-334: coercion of one element of the rolls array (`i` is the
0-based index).  Property access on JS `null` throws a `TypeError`; on other
non-object values it yields `undefined`. -/
def cleanRoll (i : ℕ) (r : JVal) : Except JErr JVal :=
  match r with
  | .null => .error .typeError
  | _ => .ok (.obj
      [("rollNumber", numOrD (getProp r "rollNumber") (.num (idxNum i))),
       ("onHand", numOrD (getProp r "onHand") (.num 0)),
       ("maxArea", numOrD (getProp r "maxArea") (truthyOrD (getProp r "onHand") (.num 0))),
       ("image", truthyOrD (getProp r "image") .null),
       ("printName", truthyOrD (getProp r "printName") .null),
       ("hasReverseSide", boolOrD (getProp r "hasReverseSide") (.bool false)),
       ("pairedRollNumber", numOrD (getProp r "pairedRollNumber") .null)])

/-- `rolls.map((roll, index) => ...)` starting at index `i`. -/
def cleanRolls (i : ℕ) : List JVal → Except JErr (List JVal)
  | [] => .ok []
  | r :: rs => do
      let x ← cleanRoll i r
      let xs ← cleanRolls (i + 1) rs
      pure (x :: xs)

/-- The elements of a property value when it is an array (`Array.isArray`),
else `none`. -/
def getArr : Option JVal → Option (List JVal)
  | some (.arr xs) => some xs
  | _ => none

/-- Lines 325-335: remap the `rolls` field when it is a (truthy) array;
a JS array is always truthy, so the guard is exactly `Array.isArray`. -/
def normalizeRolls (o : JObj) : Except JErr JObj :=
  match getArr (jget o "rolls") with
  | some xs => (cleanRolls 0 xs).map (fun ys => jset o "rolls" (.arr ys))
  | none => .ok o

/-- The normalization stage of lines 304-337: the `cleanedData` literal
followed by the rolls coercion. -/
def cleanStage (pd : JObj) (productAsin : Option String) : Except JErr JObj :=
  normalizeRolls (cleanedData pd productAsin)

/-- The resolve stage applied to a successfully parsed completion object
(lines 268-337): back-fill, block-page heuristic (lines 292-302, reached
only when title/brand are falsy and price is explicitly null), then the
normalization stage.  The warn-only validation call of line 286 has no
effect on the result and is omitted. -/
def resolveParsed (pd : JObj) (productAsin productUrl : Option String)
    (productHtml : List Char) : Except JErr JObj :=
  let pd' := backfill pd productAsin productUrl
  if !hasProductData pd' && checkBlocked productHtml then
    .error .blocked
  else
    cleanStage pd' productAsin

/-!
## Response resolver: locating the JSON object span (lines 242-254)

The completion text is trimmed, optional triple-backtick code fences are
stripped (`replace(/^```json\s*/i, '')`, `replace(/^```\s*/i, '')`,
`replace(/\s*```$/i, '')`), and the object span is located by the greedy
regex match `\{[\s\S]*\}` (spelled here with `lb`/`rb` for the braces).
-/

/-- The lowercased leading fence with language tag. -/
def fenceJson : List Char := "```json".toList

/-- The plain triple-backtick fence. -/
def fencePlain : List Char := "```".toList

/-- `replace(/^<tag>\s*/i, '')` for a literal lowercase `tag`: when the
text starts with the tag (case-insensitively), drop it and the following
whitespace run (the greedy anchored `\s*`). -/
def stripFenceStart (tag : List Char) (cs : List Char) : List Char :=
  if (cs.take tag.length).map Char.toLower = tag then
    (cs.drop tag.length).dropWhile Char.isWhitespace
  else cs

/-- `replace(/\s*```$/i, '')`: when the text ends with a triple backtick,
drop it and the whitespace run immediately before it. -/
def stripFenceEnd (cs : List Char) : List Char :=
  let r := cs.reverse
  if fencePlain.isPrefixOf r then
    ((r.drop 3).dropWhile Char.isWhitespace).reverse
  else cs

/-- The greedy-then-backtracking tail of the `\{[\s\S]*\}` match: consume
everything, then give back characters until a `rb` ends the match.  Returns
the consumed characters (up to and including the last `rb`), or `none` when
the text holds no `rb`. -/
def takeToLastRb : List Char → Option (List Char)
  | [] => none
  | c :: rest =>
      match takeToLastRb rest with
      | some m => some (c :: m)
      | none => if c = rb then some [c] else none

/-- The regex search `text.match(/\{[\s\S]*\}/)`: try each start position
left to right; at an `lb`, match greedily to the last `rb`; otherwise move
on. -/
def scanMatch : List Char → Option (List Char)
  | [] => none
  | c :: rest =>
      if c = lb then
        match takeToLastRb rest with
        | some m => some (c :: m)
        | none => scanMatch rest
      else scanMatch rest

/-- Lines 242-254: trim, strip fences, and extract the JSON object span;
`noJsonFound` models the `No JSON object found in Ollama response` throw. -/
def extractJson (responseText : List Char) : Except JErr (List Char) :=
  let t1 := stripFenceStart fenceJson (jsTrim responseText)
  let t2 := stripFenceStart fencePlain t1
  let t3 := stripFenceEnd t2
  match scanMatch t3 with
  | some m => .ok m
  | none => .error .noJsonFound

/-- Modelled from the claim's words: the span from the first `lb` through
the last `rb`, defined when such a span exists (an `rb` after the first
`lb`). -/
def specJsonSpan (cs : List Char) : Option (List Char) :=
  let a := cs.dropWhile (fun c => c != lb)
  match a with
  | [] => none
  | _ :: rest =>
      if rest.contains rb then
        some ((a.reverse.dropWhile (fun c => c != rb)).reverse)
      else none

/-!
## Validator (`validateProductData`, schema.js lines 126-154)
-/

/-- `/^[A-Z0-9]{10}$/.test(s)`. -/
def asinRegexTest (s : String) : Bool :=
  s.length = 10 &&
    s.toList.all (fun c => decide (('A' ≤ c ∧ c ≤ 'Z') ∨ ('0' ≤ c ∧ c ≤ '9')))

/-- The regex test applied to the `asin` property value.  JS coerces the
value to a string before testing; this model covers the string case exactly
and maps non-string values to `false` (theorems quantifying over records
restrict `asin` to strings, null, or absent, where this is exact). -/
def asinTestOpt : Option JVal → Bool
  | some (.str s) => asinRegexTest s
  | _ => false

/-- `['wrapping_paper', 'ribbon', 'box', 'tag', 'bow'].includes(x)`:
`includes` uses strict equality, so only equal strings pass. -/
def typeTestOpt : Option JVal → Bool
  | some (.str s) =>
      decide (s = "wrapping_paper" ∨ s = "ribbon" ∨ s = "box" ∨ s = "tag" ∨ s = "bow")
  | _ => false

/-- `x !== null && (typeof x !== 'number' || x < 0 || x > hi)`: the numeric
range checks; note an absent key (`undefined !== null`) is checked and
fails the `typeof` test. -/
def numRangeFails (v : Option JVal) (hi : ℚ) : Bool :=
  match v with
  | some .null => false
  | some (.num q) => decide (q < 0 ∨ q > hi)
  | some _ => true
  | none => true

/-- `validateProductData` (schema.js lines 126-154): the advisory violation
list, in source order. -/
def validateProductData (data : JObj) : List String :=
  (if getTruthy data "asin" && !asinTestOpt (jget data "asin") then
    ["ASIN must be 10 alphanumeric characters"] else []) ++
  (if getTruthy data "type" && !typeTestOpt (jget data "type") then
    ["Type must be one of: wrapping_paper, ribbon, box, tag, bow"] else []) ++
  (if numRangeFails (jget data "price") 100000 then
    ["Price must be a number between 0 and 100000"] else []) ++
  (if numRangeFails (jget data "quantity") 100000 then
    ["Quantity must be a number between 0 and 100000"] else []) ++
  (if numRangeFails (jget data "rollWidth") 100 then
    ["Roll width must be a number between 0 and 100"] else []) ++
  (if numRangeFails (jget data "rollLength") 100 then
    ["Roll length must be a number between 0 and 100"] else [])

/-!
## C8: the JSON object span
-/

theorem dropWhile_append_stop {p : Char → Bool} (l1 l2 : List Char)
    (h : l1.dropWhile p ≠ []) :
    (l1 ++ l2).dropWhile p = l1.dropWhile p ++ l2 := by
  induction l1 with
  | nil => simp [List.dropWhile] at h
  | cons c rest ih =>
      by_cases hc : p c
      · simp only [List.dropWhile_cons, hc, if_true, List.cons_append] at h ⊢
        simpa [List.dropWhile_cons, hc] using ih h
      · simp [List.dropWhile_cons, hc]

theorem dropWhile_append_pass {p : Char → Bool} (l1 l2 : List Char)
    (h : ∀ x ∈ l1, p x) :
    (l1 ++ l2).dropWhile p = l2.dropWhile p := by
  induction l1 with
  | nil => simp
  | cons c rest ih =>
      have hc : p c := h c (by simp)
      simp only [List.cons_append, List.dropWhile_cons, hc, if_true]
      exact ih (fun x hx => h x (by simp [hx]))

theorem takeToLastRb_of_not_mem (cs : List Char) (h : rb ∉ cs) :
    takeToLastRb cs = none := by
  induction cs with
  | nil => rfl
  | cons c rest ih =>
      have hc : c ≠ rb := fun hc => h (hc ▸ List.mem_cons_self c rest)
      have hr : rb ∉ rest := fun hr => h (List.mem_cons_of_mem c hr)
      simp [takeToLastRb, ih hr, hc]

theorem takeToLastRb_of_mem (cs : List Char) (h : rb ∈ cs) :
    takeToLastRb cs = some ((cs.reverse.dropWhile (fun c => c != rb)).reverse) := by
  induction cs with
  | nil => simp at h
  | cons c rest ih =>
      by_cases hr : rb ∈ rest
      · have hne : rest.reverse.dropWhile (fun c => c != rb) ≠ [] := by
          intro hnil
          have := List.dropWhile_eq_nil_iff.mp hnil rb (by simp [hr])
          simp at this
        rw [List.reverse_cons, dropWhile_append_stop _ _ hne]
        simp [takeToLastRb, ih hr]
      · have hc : c = rb := by
          rcases List.mem_cons.mp h with h1 | h2
          · exact h1.symm
          · exact absurd h2 hr
        have hall : ∀ x ∈ rest.reverse, (fun c => c != rb) x = true := by
          intro x hx
          have : x ≠ rb := fun he => hr (he ▸ (List.mem_reverse.mp hx))
          simp [this]
        rw [List.reverse_cons, dropWhile_append_pass _ _ hall]
        simp [takeToLastRb, takeToLastRb_of_not_mem rest hr, hc, List.dropWhile]

theorem specJsonSpan_of_not_mem (cs : List Char) (h : rb ∉ cs) :
    specJsonSpan cs = none := by
  unfold specJsonSpan
  cases ha : cs.dropWhile (fun c => c != lb) with
  | nil => rfl
  | cons x rest =>
      have hsub : x :: rest <:+ cs := ha ▸ List.dropWhile_suffix _
      have hnotin : rb ∉ rest := by
        intro hrb
        exact h (hsub.subset (List.mem_cons_of_mem x hrb))
      have hcon : rest.contains rb = false := by
        cases hc : rest.contains rb with
        | false => rfl
        | true => exact absurd (List.mem_of_elem_eq_true hc) hnotin
      simp [hcon]
      exact hnotin

theorem scanMatch_eq_specJsonSpan (cs : List Char) :
    scanMatch cs = specJsonSpan cs := by
  induction cs with
  | nil => rfl
  | cons c rest ih =>
      by_cases hc : c = lb
      · subst hc
        by_cases hr : rb ∈ rest
        · rw [show scanMatch (lb :: rest) = some (lb :: ((rest.reverse.dropWhile
              (fun c => c != rb)).reverse)) from by
            simp [scanMatch, takeToLastRb_of_mem rest hr]]
          unfold specJsonSpan
          rw [show List.dropWhile (fun c => c != lb) (lb :: rest) = lb :: rest from by
            simp [List.dropWhile]]
          have hcon : rest.contains rb = true := List.elem_eq_true_of_mem hr
          simp only [hcon, if_true]
          have hne : rest.reverse.dropWhile (fun c => c != rb) ≠ [] := by
            intro hnil
            have := List.dropWhile_eq_nil_iff.mp hnil rb (by simp [hr])
            simp at this
          rw [List.reverse_cons, dropWhile_append_stop _ _ hne]
          simp
        · rw [show scanMatch (lb :: rest) = scanMatch rest from by
            simp [scanMatch, takeToLastRb_of_not_mem rest hr]]
          rw [ih]
          have hrb1 : rb ∉ rest := hr
          have hrb2 : rb ∉ lb :: rest := by
            intro hmem
            rcases List.mem_cons.mp hmem with h1 | h2
            · exact absurd h1.symm (by decide)
            · exact hr h2
          rw [specJsonSpan_of_not_mem rest hrb1, specJsonSpan_of_not_mem _ hrb2]
      · have h1 : scanMatch (c :: rest) = scanMatch rest := by
          simp [scanMatch, hc]
        have h2 : specJsonSpan (c :: rest) = specJsonSpan rest := by
          unfold specJsonSpan
          have : ((fun c => c != lb) c) = true := by simp [hc]
          simp only [List.dropWhile_cons, this, if_true]
        rw [h1, h2, ih]

/-- C8, confirmed: for every completion text, after trimming and stripping an
optional leading/trailing triple-backtick code fence (with or without a
`json` tag), the extracted JSON object span is exactly the substring from
the first `lb` through the last `rb` of the stripped text; when no such
span exists (in particular when the text has no `lb` or no `rb` at all),
extraction fails with the no-JSON-found error. -/
theorem c8_json_span (responseText : List Char) :
    extractJson responseText =
      (match specJsonSpan (stripFenceEnd (stripFenceStart fencePlain
          (stripFenceStart fenceJson (jsTrim responseText)))) with
       | some m => Except.ok m
       | none => Except.error JErr.noJsonFound) := by
  show (match scanMatch (stripFenceEnd (stripFenceStart fencePlain
      (stripFenceStart fenceJson (jsTrim responseText)))) with
    | some m => Except.ok m
    | none => Except.error JErr.noJsonFound) = _
  rw [scanMatch_eq_specJsonSpan]

/-!
## C7: the validator
-/

/-- Modelled from claim C7's words: a field is subject to its check when it
is present and non-null (so `asin = ""` would be checked, unlike in the
source, whose guard is JS truthiness). -/
def nonNullPresent (data : JObj) (k : String) : Bool :=
  match jget data k with
  | some .null => false
  | some _ => true
  | none => false

/-- Modelled from claim C7's words: the violations implied by reading every
guard as `when non-null`, in the source's order and with the source's
messages. -/
def claimImpliedViolations (data : JObj) : List String :=
  (if nonNullPresent data "asin" && !asinTestOpt (jget data "asin") then
    ["ASIN must be 10 alphanumeric characters"] else []) ++
  (if nonNullPresent data "type" && !typeTestOpt (jget data "type") then
    ["Type must be one of: wrapping_paper, ribbon, box, tag, bow"] else []) ++
  (if nonNullPresent data "price" && !(match jget data "price" with
      | some (.num q) => decide (0 ≤ q ∧ q ≤ 100000)
      | _ => false) then
    ["Price must be a number between 0 and 100000"] else []) ++
  (if nonNullPresent data "quantity" && !(match jget data "quantity" with
      | some (.num q) => decide (0 ≤ q ∧ q ≤ 100000)
      | _ => false) then
    ["Quantity must be a number between 0 and 100000"] else []) ++
  (if nonNullPresent data "rollWidth" && !(match jget data "rollWidth" with
      | some (.num q) => decide (0 ≤ q ∧ q ≤ 100)
      | _ => false) then
    ["Roll width must be a number between 0 and 100"] else []) ++
  (if nonNullPresent data "rollLength" && !(match jget data "rollLength" with
      | some (.num q) => decide (0 ≤ q ∧ q ≤ 100)
      | _ => false) then
    ["Roll length must be a number between 0 and 100"] else [])

/-- Claim C7 as stated: the validator returns exactly the violations implied
by checking each field `when non-null`, and no others. -/
def claimC7 : Prop :=
  ∀ data : JObj, validateProductData data = claimImpliedViolations data

/-- C7 is false on the code: for the record with `asin = ""` and every other
checked field explicitly null, the claim implies one violation (the empty
string is non-null and does not match the 10-character pattern), but the
source's guard is JS truthiness, so `asin = ""` is skipped and the validator
returns no violations. -/
theorem c7_counterexample : ¬ claimC7 := by
  intro hc
  have h := hc [("asin", .str ""), ("type", .null), ("price", .null),
    ("quantity", .null), ("rollWidth", .null), ("rollLength", .null)]
  exact absurd h (by decide)

/-- Membership in one conditional violation singleton. -/
theorem mem_violation (msg m : String) (c : Bool) :
    (msg ∈ if c then [m] else []) ↔ (c = true ∧ msg = m) := by
  cases c <;> simp

theorem numRangeFails_iff (v : Option JVal) (hi : ℚ) :
    numRangeFails v hi = true ↔
      (v ≠ some JVal.null ∧ ¬∃ q : ℚ, v = some (JVal.num q) ∧ 0 ≤ q ∧ q ≤ hi) := by
  match v with
  | none => simp [numRangeFails]
  | some .null => simp [numRangeFails]
  | some (.bool b) => simp [numRangeFails]
  | some (.str s) => simp [numRangeFails]
  | some (.arr xs) => simp [numRangeFails]
  | some (.obj fs) => simp [numRangeFails]
  | some (.num q) =>
      simp only [numRangeFails, decide_eq_true_eq, ne_eq, Option.some.injEq]
      constructor
      · intro h
        refine ⟨by simp, ?_⟩
        rintro ⟨q', hq', h0, h1⟩
        have : q' = q := by
          cases hq'
          rfl
        subst this
        rcases h with h | h
        · exact absurd h0 (not_le.mpr h)
        · exact absurd h1 (not_le.mpr h)
      · rintro ⟨-, h⟩
        by_contra hq
        push_neg at hq
        exact h ⟨q, rfl, hq.1, hq.2⟩

/-- The record's `asin` field is a string, explicit null, or absent — the
domain on which the model's regex test agrees exactly with JS (JS coerces
other values to strings before testing). -/
def asinWellTyped (data : JObj) : Prop :=
  match jget data "asin" with
  | some (.str _) => True
  | some .null => True
  | none => True
  | _ => False

theorem asinRegexTest_iff (s : String) :
    asinRegexTest s = true ↔
      (s.length = 10 ∧ ∀ c ∈ s.toList, ('A' ≤ c ∧ c ≤ 'Z') ∨ ('0' ≤ c ∧ c ≤ '9')) := by
  unfold asinRegexTest
  simp [List.all_eq_true]

/-- C7 amended: the validator is pure and returns exactly these violations:
`asin` must match ten uppercase-alphanumeric characters whenever it is
truthy (a present, non-empty string — an empty string is skipped, not
reported); `type` must be one of the five enumerated strings whenever
truthy; `price` and `quantity` must be numbers in `[0, 100000]` and
`rollWidth`/`rollLength` numbers in `[0, 100]` whenever not explicitly
null (an absent key is checked and reported, since `undefined !== null`). -/
theorem c7_amended (data : JObj) (h : asinWellTyped data) :
    ("ASIN must be 10 alphanumeric characters" ∈ validateProductData data ↔
      ∃ s : String, jget data "asin" = some (.str s) ∧ s ≠ "" ∧
        ¬(s.length = 10 ∧ ∀ c ∈ s.toList, ('A' ≤ c ∧ c ≤ 'Z') ∨ ('0' ≤ c ∧ c ≤ '9'))) ∧
    ("Type must be one of: wrapping_paper, ribbon, box, tag, bow" ∈
        validateProductData data ↔
      ∃ v : JVal, jget data "type" = some v ∧ jsTruthy v = true ∧
        v ≠ .str "wrapping_paper" ∧ v ≠ .str "ribbon" ∧ v ≠ .str "box" ∧
        v ≠ .str "tag" ∧ v ≠ .str "bow") ∧
    ("Price must be a number between 0 and 100000" ∈ validateProductData data ↔
      (jget data "price" ≠ some JVal.null ∧
        ¬∃ q : ℚ, jget data "price" = some (.num q) ∧ 0 ≤ q ∧ q ≤ 100000)) ∧
    ("Quantity must be a number between 0 and 100000" ∈ validateProductData data ↔
      (jget data "quantity" ≠ some JVal.null ∧
        ¬∃ q : ℚ, jget data "quantity" = some (.num q) ∧ 0 ≤ q ∧ q ≤ 100000)) ∧
    ("Roll width must be a number between 0 and 100" ∈ validateProductData data ↔
      (jget data "rollWidth" ≠ some JVal.null ∧
        ¬∃ q : ℚ, jget data "rollWidth" = some (.num q) ∧ 0 ≤ q ∧ q ≤ 100)) ∧
    ("Roll length must be a number between 0 and 100" ∈ validateProductData data ↔
      (jget data "rollLength" ≠ some JVal.null ∧
        ¬∃ q : ℚ, jget data "rollLength" = some (.num q) ∧ 0 ≤ q ∧ q ≤ 100)) := by
  have hmem : ∀ msg : String, msg ∈ validateProductData data ↔
      ((getTruthy data "asin" && !asinTestOpt (jget data "asin")) = true ∧
        msg = "ASIN must be 10 alphanumeric characters") ∨
      ((getTruthy data "type" && !typeTestOpt (jget data "type")) = true ∧
        msg = "Type must be one of: wrapping_paper, ribbon, box, tag, bow") ∨
      (numRangeFails (jget data "price") 100000 = true ∧
        msg = "Price must be a number between 0 and 100000") ∨
      (numRangeFails (jget data "quantity") 100000 = true ∧
        msg = "Quantity must be a number between 0 and 100000") ∨
      (numRangeFails (jget data "rollWidth") 100 = true ∧
        msg = "Roll width must be a number between 0 and 100") ∨
      (numRangeFails (jget data "rollLength") 100 = true ∧
        msg = "Roll length must be a number between 0 and 100") := by
    intro msg
    unfold validateProductData
    simp only [List.mem_append, mem_violation]
    tauto
  refine ⟨?_, ?_, ?_, ?_, ?_, ?_⟩
  · rw [hmem]
    have hne1 : ("ASIN must be 10 alphanumeric characters" :
        String) ≠ "Type must be one of: wrapping_paper, ribbon, box, tag, bow" := by decide
    simp only [hne1, and_false, false_or, or_false, and_true,
      show ("ASIN must be 10 alphanumeric characters" : String) ≠
        "Price must be a number between 0 and 100000" from by decide,
      show ("ASIN must be 10 alphanumeric characters" : String) ≠
        "Quantity must be a number between 0 and 100000" from by decide,
      show ("ASIN must be 10 alphanumeric characters" : String) ≠
        "Roll width must be a number between 0 and 100" from by decide,
      show ("ASIN must be 10 alphanumeric characters" : String) ≠
        "Roll length must be a number between 0 and 100" from by decide]
    unfold asinWellTyped at h
    cases hv : jget data "asin" with
    | none =>
        simp [getTruthy, hv]
    | some v =>
        rw [hv] at h
        match v, h with
        | .str s, _ =>
            simp only [getTruthy, hv, jsTruthy, asinTestOpt, Bool.and_eq_true,
              Bool.not_eq_true', decide_eq_true_eq]
            constructor
            · rintro ⟨hs, htest⟩
              refine ⟨s, rfl, by simpa using hs, ?_⟩
              intro hc
              rw [(asinRegexTest_iff s).mpr hc] at htest
              simp at htest
            · rintro ⟨s', hs', hne, hfail⟩
              have : s' = s := by
                cases hs'
                rfl
              subst this
              refine ⟨by simpa using hne, ?_⟩
              cases ht : asinRegexTest s' with
              | false => rfl
              | true => exact absurd ((asinRegexTest_iff s').mp ht) hfail
        | .null, _ =>
            simp [getTruthy, hv, jsTruthy]
  · rw [hmem]
    simp only [and_true,
      show ("Type must be one of: wrapping_paper, ribbon, box, tag, bow" : String) ≠
        "ASIN must be 10 alphanumeric characters" from by decide,
      show ("Type must be one of: wrapping_paper, ribbon, box, tag, bow" : String) ≠
        "Price must be a number between 0 and 100000" from by decide,
      show ("Type must be one of: wrapping_paper, ribbon, box, tag, bow" : String) ≠
        "Quantity must be a number between 0 and 100000" from by decide,
      show ("Type must be one of: wrapping_paper, ribbon, box, tag, bow" : String) ≠
        "Roll width must be a number between 0 and 100" from by decide,
      show ("Type must be one of: wrapping_paper, ribbon, box, tag, bow" : String) ≠
        "Roll length must be a number between 0 and 100" from by decide,
      and_false, false_or, or_false]
    cases hv : jget data "type" with
    | none => simp [getTruthy, hv]
    | some v =>
        simp only [getTruthy, hv, Bool.and_eq_true, Bool.not_eq_true']
        constructor
        · rintro ⟨htr, htest⟩
          refine ⟨v, rfl, htr, ?_⟩
          match v, htest with
          | .str s, htest =>
              simp only [typeTestOpt, decide_eq_false_iff_not] at htest
              push_neg at htest
              obtain ⟨h1, h2, h3, h4, h5⟩ := htest
              exact ⟨by simp [h1], by simp [h2], by simp [h3], by simp [h4], by simp [h5]⟩
          | .null, _ => simp
          | .bool b, _ => simp
          | .num q, _ => simp
          | .arr xs, _ => simp
          | .obj fs, _ => simp
        · rintro ⟨v', hv', htr, h1, h2, h3, h4, h5⟩
          have : v' = v := by
            cases hv'
            rfl
          subst this
          refine ⟨htr, ?_⟩
          match v' with
          | .str s =>
              simp only [ne_eq, JVal.str.injEq] at h1 h2 h3 h4 h5
              simp [typeTestOpt, h1, h2, h3, h4, h5]
          | .null => rfl
          | .bool b => rfl
          | .num q => rfl
          | .arr xs => rfl
          | .obj fs => rfl
  · rw [hmem]
    simp only [and_true,
      show ("Price must be a number between 0 and 100000" : String) ≠
        "ASIN must be 10 alphanumeric characters" from by decide,
      show ("Price must be a number between 0 and 100000" : String) ≠
        "Type must be one of: wrapping_paper, ribbon, box, tag, bow" from by decide,
      show ("Price must be a number between 0 and 100000" : String) ≠
        "Quantity must be a number between 0 and 100000" from by decide,
      show ("Price must be a number between 0 and 100000" : String) ≠
        "Roll width must be a number between 0 and 100" from by decide,
      show ("Price must be a number between 0 and 100000" : String) ≠
        "Roll length must be a number between 0 and 100" from by decide,
      and_false, false_or, or_false]
    exact numRangeFails_iff _ _
  · rw [hmem]
    simp only [and_true,
      show ("Quantity must be a number between 0 and 100000" : String) ≠
        "ASIN must be 10 alphanumeric characters" from by decide,
      show ("Quantity must be a number between 0 and 100000" : String) ≠
        "Type must be one of: wrapping_paper, ribbon, box, tag, bow" from by decide,
      show ("Quantity must be a number between 0 and 100000" : String) ≠
        "Price must be a number between 0 and 100000" from by decide,
      show ("Quantity must be a number between 0 and 100000" : String) ≠
        "Roll width must be a number between 0 and 100" from by decide,
      show ("Quantity must be a number between 0 and 100000" : String) ≠
        "Roll length must be a number between 0 and 100" from by decide,
      and_false, false_or, or_false]
    exact numRangeFails_iff _ _
  · rw [hmem]
    simp only [and_true,
      show ("Roll width must be a number between 0 and 100" : String) ≠
        "ASIN must be 10 alphanumeric characters" from by decide,
      show ("Roll width must be a number between 0 and 100" : String) ≠
        "Type must be one of: wrapping_paper, ribbon, box, tag, bow" from by decide,
      show ("Roll width must be a number between 0 and 100" : String) ≠
        "Price must be a number between 0 and 100000" from by decide,
      show ("Roll width must be a number between 0 and 100" : String) ≠
        "Quantity must be a number between 0 and 100000" from by decide,
      show ("Roll width must be a number between 0 and 100" : String) ≠
        "Roll length must be a number between 0 and 100" from by decide,
      and_false, false_or, or_false]
    exact numRangeFails_iff _ _
  · rw [hmem]
    simp only [and_true,
      show ("Roll length must be a number between 0 and 100" : String) ≠
        "ASIN must be 10 alphanumeric characters" from by decide,
      show ("Roll length must be a number between 0 and 100" : String) ≠
        "Type must be one of: wrapping_paper, ribbon, box, tag, bow" from by decide,
      show ("Roll length must be a number between 0 and 100" : String) ≠
        "Price must be a number between 0 and 100000" from by decide,
      show ("Roll length must be a number between 0 and 100" : String) ≠
        "Quantity must be a number between 0 and 100000" from by decide,
      show ("Roll length must be a number between 0 and 100" : String) ≠
        "Roll width must be a number between 0 and 100" from by decide,
      and_false, false_or, or_false]
    exact numRangeFails_iff _ _

/-- Witness for C7: at a record with all checked fields explicitly null
except `price = -5`, the validator reports exactly the price violation
(and a record with `price = null` yields no violations); the amended
characterization is instantiated there through `c7_amended`. -/
theorem c7_amended_witness :
    validateProductData [("asin", JVal.null), ("type", JVal.null),
        ("price", JVal.num (-5)), ("quantity", JVal.null),
        ("rollWidth", JVal.null), ("rollLength", JVal.null)] =
      ["Price must be a number between 0 and 100000"] ∧
    validateProductData [("asin", JVal.null), ("type", JVal.null),
        ("price", JVal.null), ("quantity", JVal.null),
        ("rollWidth", JVal.null), ("rollLength", JVal.null)] = [] ∧
    asinWellTyped [("price", JVal.num (-5))] ∧
    ("Price must be a number between 0 and 100000" ∈
        validateProductData [("price", JVal.num (-5))] ↔
      (jget [("price", JVal.num (-5))] "price" ≠ some JVal.null ∧
        ¬∃ q : ℚ, jget [("price", JVal.num (-5))] "price" = some (JVal.num q) ∧
          0 ≤ q ∧ q ≤ 100000)) :=
  ⟨by decide, by decide, trivial,
    (c7_amended [("price", JVal.num (-5))] trivial).2.2.1⟩

/-!
## C6: the three-way rule for printNames and rolls
-/

/-- C6, confirmed: in the normalization step of resolve (the `cleanedData`
literal, lines 317-318), the `printNames` and `rolls` fields follow the
three-way rule: a true array is kept as-is, an explicit null is kept as
null, and anything else (wrong type or an absent key) becomes an empty
array.  (The `rolls` array's elements are subsequently coerced
element-wise by the separate step of lines 325-335, claim C4.) -/
theorem c6_three_way (pd : JObj) (productAsin : Option String) :
    jget (cleanedData pd productAsin) "printNames" =
      some (match jget pd "printNames" with
        | some (JVal.arr xs) => JVal.arr xs
        | some JVal.null => JVal.null
        | _ => JVal.arr []) ∧
    jget (cleanedData pd productAsin) "rolls" =
      some (match jget pd "rolls" with
        | some (JVal.arr xs) => JVal.arr xs
        | some JVal.null => JVal.null
        | _ => JVal.arr []) :=
  ⟨rfl, rfl⟩

/-!
## Helper lemmas about the backfill and rolls steps
-/

theorem jget_backfillAsin_ne (pd : JObj) (a : Option String) (k : String)
    (hk : k ≠ "asin") : jget (backfillAsin pd a) k = jget pd k := by
  unfold backfillAsin
  by_cases hc : ¬ getTruthy pd "asin" = true ∧ truthyOpt a = true
  · rw [if_pos hc, jget_jset_ne _ _ _ _ hk]
  · rw [if_neg hc]

theorem jget_backfillUrl_ne (pd : JObj) (a u : Option String) (k : String)
    (hk : k ≠ "url") : jget (backfillUrl pd a u) k = jget pd k := by
  unfold backfillUrl
  by_cases h1 : ¬ getTruthy pd "url" = true ∧ truthyOpt u = true
  · rw [if_pos h1, jget_jset_ne _ _ _ _ hk]
  · rw [if_neg h1]
    by_cases h2 : ¬ getTruthy pd "url" = true ∧ truthyOpt a = true
    · rw [if_pos h2, jget_jset_ne _ _ _ _ hk]
    · rw [if_neg h2]

theorem jget_coerceImages_ne (pd : JObj) (k : String) (hk : k ≠ "images") :
    jget (coerceImages pd) k = jget pd k := by
  unfold coerceImages
  by_cases hc : isArrJ (jget pd "images") = true
  · rw [if_pos hc]
  · rw [if_neg hc, jget_jset_ne _ _ _ _ hk]

theorem jget_backfill_ne (pd : JObj) (a u : Option String) (k : String)
    (h1 : k ≠ "asin") (h2 : k ≠ "url") (h3 : k ≠ "images") :
    jget (backfill pd a u) k = jget pd k := by
  unfold backfill
  rw [jget_coerceImages_ne _ _ h3, jget_backfillUrl_ne _ _ _ _ h2,
    jget_backfillAsin_ne _ _ _ h1]

theorem jget_backfill_asin_set (pd : JObj) (a : String) (u : Option String)
    (hasin : jget pd "asin" = none) (ha : a ≠ "") :
    jget (backfill pd (some a) u) "asin" = some (JVal.str a) := by
  unfold backfill
  rw [jget_coerceImages_ne _ _ (by decide), jget_backfillUrl_ne _ _ _ _ (by decide)]
  unfold backfillAsin
  rw [if_pos ⟨by simp [getTruthy, hasin], by simp [truthyOpt, ha]⟩, jget_jset_self]
  rfl

theorem jget_backfill_url_set (pd : JObj) (a : String) (u : Option String)
    (hurl : jget pd "url" = none) (ha : a ≠ "") :
    jget (backfill pd (some a) u) "url" =
      some (if truthyOpt u then optStrVal u else JVal.str (dpUrl a)) := by
  unfold backfill
  rw [jget_coerceImages_ne _ _ (by decide)]
  have hurl1 : jget (backfillAsin pd (some a)) "url" = none := by
    rw [jget_backfillAsin_ne _ _ _ (by decide), hurl]
  unfold backfillUrl
  by_cases hu : truthyOpt u = true
  · rw [if_pos ⟨by simp [getTruthy, hurl1], hu⟩, jget_jset_self, if_pos hu]
  · rw [if_neg (fun hc => hu hc.2),
      if_pos ⟨by simp [getTruthy, hurl1], by simp [truthyOpt, ha]⟩,
      jget_jset_self, if_neg hu]
    rfl

theorem normalizeRolls_ok_cases {o R : JObj} (h : normalizeRolls o = .ok R) :
    (∃ xs ys, getArr (jget o "rolls") = some xs ∧ cleanRolls 0 xs = .ok ys ∧
      R = jset o "rolls" (.arr ys)) ∨
    (getArr (jget o "rolls") = none ∧ R = o) := by
  unfold normalizeRolls at h
  cases hv : getArr (jget o "rolls") with
  | none =>
      rw [hv] at h
      injection h with h
      exact .inr ⟨rfl, h.symm⟩
  | some xs =>
      rw [hv] at h
      change Except.map (fun ys => jset o "rolls" (JVal.arr ys)) (cleanRolls 0 xs) =
        Except.ok R at h
      cases hc : cleanRolls 0 xs with
      | error e => rw [hc] at h; simp [Except.map] at h
      | ok ys =>
          rw [hc] at h
          simp only [Except.map] at h
          injection h with h
          exact .inl ⟨xs, ys, rfl, hc, h.symm⟩

/-- Lookups other than `rolls` read through the rolls-normalization step. -/
theorem jget_normalizeRolls_ne {o R : JObj} (k : String) (hk : k ≠ "rolls")
    (h : normalizeRolls o = .ok R) : jget R k = jget o k := by
  rcases normalizeRolls_ok_cases h with ⟨xs, ys, _, _, hR⟩ | ⟨_, hR⟩
  · rw [hR, jget_jset_ne _ _ _ _ hk]
  · rw [hR]

theorem dpUrl_ne_empty (a : String) : dpUrl a ≠ "" := by
  intro h
  have hlen := congrArg String.length h
  simp [dpUrl, String.length_append] at hlen
  exact absurd hlen.1 (by decide)

/-!
## C9: ASIN and URL back-filling
-/

/-- C9, confirmed: when the parsed object's `asin` key is absent and a
(non-empty) caller-supplied fallback ASIN exists, a successful resolve
returns a record whose `asin` is the fallback ASIN; and when the object's
`url` key is also absent, the record's `url` is the fallback URL when that
is supplied (non-empty), or else the synthesized canonical
`https://www.amazon.com/dp/<asin>` URL. -/
theorem c9_backfill (pd : JObj) (a : String) (u : Option String)
    (html : List Char) (R : JObj)
    (hasin : jget pd "asin" = none) (ha : a ≠ "")
    (hok : resolveParsed pd (some a) u html = .ok R) :
    jget R "asin" = some (JVal.str a) ∧
    (jget pd "url" = none →
      jget R "url" = some (if truthyOpt u then optStrVal u
        else JVal.str (dpUrl a))) := by
  unfold resolveParsed at hok
  by_cases hb : (!hasProductData (backfill pd (some a) u) && checkBlocked html) = true
  · rw [if_pos hb] at hok
    exact absurd hok (by simp)
  · rw [if_neg hb] at hok
    unfold cleanStage at hok
    constructor
    · rw [jget_normalizeRolls_ne "asin" (by decide) hok]
      show some (truthyOrD (jget (backfill pd (some a) u) "asin") .null) = _
      rw [jget_backfill_asin_set pd a u hasin ha]
      simp [truthyOrD, jsTruthy, ha]
    · intro hurl
      rw [jget_normalizeRolls_ne "url" (by decide) hok]
      show some (truthyOrD (jget (backfill pd (some a) u) "url")
        (urlFallback (some a))) = _
      rw [jget_backfill_url_set pd a u hurl ha]
      by_cases hu : truthyOpt u = true
      · match u, hu with
        | some s, hu =>
            have hs : s ≠ "" := by simpa [truthyOpt] using hu
            simp [truthyOrD, optStrVal, jsTruthy, hs, hu]
      · simp [truthyOrD, jsTruthy, dpUrl_ne_empty a, hu]

/-- The record produced by the resolve stage at the C9 witness input. -/
def c9RecordW : JObj :=
  [("asin", .str "B08XYZ1234"), ("type", .null), ("title", .str "Gift Wrap"),
   ("price", .null), ("brand", .null), ("description", .null),
   ("size", .null), ("quantity", .null), ("dimensions", .null),
   ("rollLength", .null), ("rollWidth", .null), ("printNames", .arr []),
   ("rolls", .arr []), ("thumbnail", .null), ("images", .arr []),
   ("url", .str "https://www.amazon.com/dp/B08XYZ1234")]

/-- Witness for C9, at the spec's own example: a parsed object missing
`asin` and `url`, with caller-supplied ASIN `B08XYZ1234` and no fallback
URL, resolves to a record with `asin = B08XYZ1234` and
`url = https://www.amazon.com/dp/B08XYZ1234`. -/
theorem c9_backfill_witness :
    jget ([("title", JVal.str "Gift Wrap")] : JObj) "asin" = none ∧
    ("B08XYZ1234" : String) ≠ "" ∧
    resolveParsed [("title", JVal.str "Gift Wrap")] (some "B08XYZ1234") none [] =
      .ok c9RecordW ∧
    jget c9RecordW "asin" = some (JVal.str "B08XYZ1234") ∧
    jget c9RecordW "url" = some (JVal.str "https://www.amazon.com/dp/B08XYZ1234") := by
  have h := c9_backfill [("title", JVal.str "Gift Wrap")] "B08XYZ1234" none [] c9RecordW
    rfl (by decide) (by rfl)
  exact ⟨rfl, by decide, by rfl, h.1, h.2 rfl⟩

/-!
## C2: scalar field normalization
-/

/-- The scalar fields named by claim C2. -/
def scalarKeys : List String :=
  ["asin", "type", "title", "brand", "description", "size", "dimensions",
   "thumbnail", "price", "quantity", "rollLength", "rollWidth", "url"]

/-- Claim C2 as stated: every scalar field of the normalized record equals
the parsed object's value whenever the key is present (falsy present values
such as `""`, `0` or `false` included), and null whenever the key is
absent. -/
def claimC2 : Prop :=
  ∀ (pd : JObj) (productAsin : Option String) (k : String), k ∈ scalarKeys →
    jget (cleanedData pd productAsin) k = some (presentOrNull (jget pd k))

/-- C2 is false on the code: a present falsy value is not kept.  With
`title = ""` the normalized record holds `title = null`, not the present
empty string, because the source uses `productData.title || null`. -/
theorem c2_counterexample : ¬ claimC2 := by
  intro hc
  have h := hc [("title", JVal.str "")] none "title" (by decide)
  have h2 : JVal.null = JVal.str "" := Option.some.inj h
  exact JVal.noConfusion h2

/-- C2 amended: the string-like fields (asin, type, title, brand,
description, size, dimensions, thumbnail) keep their parsed value only when
it is truthy and normalize to null otherwise (so falsy present values such
as `""` or `0` become null); the numeric fields (price, quantity,
rollLength, rollWidth) keep any present value — falsy included — and
normalize to null only when the key is absent; `url` keeps a truthy parsed
value and otherwise falls back to the canonical
`https://www.amazon.com/dp/<asin>` URL when the ASIN context is truthy,
else null. -/
theorem c2_amended (pd : JObj) (productAsin : Option String) :
    (∀ k ∈ (["asin", "type", "title", "brand", "description", "size",
        "dimensions", "thumbnail"] : List String),
      jget (cleanedData pd productAsin) k =
        some (match jget pd k with
          | some v => if jsTruthy v then v else JVal.null
          | none => JVal.null)) ∧
    (∀ k ∈ (["price", "quantity", "rollLength", "rollWidth"] : List String),
      jget (cleanedData pd productAsin) k =
        some (match jget pd k with
          | some v => v
          | none => JVal.null)) ∧
    jget (cleanedData pd productAsin) "url" =
      some (match jget pd "url" with
        | some v => if jsTruthy v then v else urlFallback productAsin
        | none => urlFallback productAsin) := by
  refine ⟨?_, ?_, rfl⟩
  · intro k hk
    fin_cases hk <;> rfl
  · intro k hk
    fin_cases hk <;> rfl

/-- Witness for C2: at a record with present falsy values `title = ""` and
`price = 0`, the amended rules give `title = null` (falsy string dropped)
and `price = 0` (present numeric value kept). -/
theorem c2_amended_witness :
    jget (cleanedData [("title", JVal.str ""), ("price", JVal.num 0)] none) "title" =
      some JVal.null ∧
    jget (cleanedData [("title", JVal.str ""), ("price", JVal.num 0)] none) "price" =
      some (JVal.num 0) := by
  have h := c2_amended [("title", JVal.str ""), ("price", JVal.num 0)] none
  exact ⟨by rw [h.1 "title" (by decide)]; rfl, by rw [h.2.1 "price" (by decide)]; rfl⟩

/-!
## C3: the block-page heuristic
-/

/-- Claim C3 as stated: whenever title, price, and brand all normalize to
null, blocking HTML yields the blocked error and non-blocking HTML yields a
successful (mostly empty) record. -/
def claimC3 : Prop :=
  ∀ (pd : JObj) (productAsin productUrl : Option String) (html : List Char),
    truthyOrD (jget (backfill pd productAsin productUrl) "title") .null = JVal.null →
    presentOrNull (jget (backfill pd productAsin productUrl) "price") = JVal.null →
    truthyOrD (jget (backfill pd productAsin productUrl) "brand") .null = JVal.null →
    (checkBlocked html = true →
      resolveParsed pd productAsin productUrl html = .error .blocked) ∧
    (checkBlocked html = false →
      ∃ R, resolveParsed pd productAsin productUrl html = .ok R)

/-- The record produced at the C3 counterexample input. -/
def c3RecordW : JObj :=
  [("asin", .null), ("type", .null), ("title", .null), ("price", .null),
   ("brand", .null), ("description", .null), ("size", .null),
   ("quantity", .null), ("dimensions", .null), ("rollLength", .null),
   ("rollWidth", .null), ("printNames", .arr []), ("rolls", .arr []),
   ("thumbnail", .null), ("images", .arr []), ("url", .null)]

/-- C3 is false on the code: for the empty parsed object `\x7b\x7d` — whose
title, price and brand all normalize to null — with HTML that does contain
the phrase `continue shopping`, the pipeline does NOT raise the blocked
error: the guard tests the pre-normalization value `productData.price !==
null`, and an absent price key (`undefined !== null`) counts as product
data, so the mostly-empty record is returned. -/
theorem c3_counterexample : ¬ claimC3 := by
  intro hc
  have h := (hc [] none none "continue shopping".toList rfl rfl rfl).1 (by decide)
  rw [show resolveParsed [] none none "continue shopping".toList = .ok c3RecordW
    from rfl] at h
  exact Except.noConfusion h

theorem cleanRolls_ok_of_no_null (xs : List JVal) (h : ∀ r ∈ xs, r ≠ JVal.null) :
    ∀ i : ℕ, ∃ ys, cleanRolls i xs = .ok ys := by
  induction xs with
  | nil => exact fun i => ⟨[], rfl⟩
  | cons r rs ih =>
      intro i
      obtain ⟨ys, hys⟩ := ih (fun x hx => h x (List.mem_cons_of_mem _ hx)) (i + 1)
      have hr : r ≠ JVal.null := h r (List.mem_cons_self _ _)
      have hroll : ∃ v, cleanRoll i r = .ok v := by
        match r, hr with
        | .bool b, _ => exact ⟨_, rfl⟩
        | .num q, _ => exact ⟨_, rfl⟩
        | .str s, _ => exact ⟨_, rfl⟩
        | .arr l, _ => exact ⟨_, rfl⟩
        | .obj fs, _ => exact ⟨_, rfl⟩
        | .null, hr => exact absurd rfl hr
      obtain ⟨v, hv⟩ := hroll
      refine ⟨v :: ys, ?_⟩
      show (do
        let x ← cleanRoll i r
        let xs' ← cleanRolls (i + 1) rs
        pure (x :: xs')) = Except.ok (v :: ys)
      rw [hv, hys]
      rfl

/-- C3 amended: the heuristic fires only when title and brand are falsy and
the parsed object's `price` key is present and explicitly null — an absent
price key counts as product data because the source tests
`productData.price !== null` before normalization.  Under those conditions,
HTML containing `continue shopping` or `click the button below`
(case-insensitively) yields the blocked error, and HTML containing neither
phrase yields a successful record (provided the rolls array, when present,
has no null elements, which would make the roll coercion throw). -/
theorem c3_amended (pd : JObj) (productAsin productUrl : Option String)
    (html : List Char)
    (htitle : getTruthy pd "title" = false)
    (hprice : jget pd "price" = some JVal.null)
    (hbrand : getTruthy pd "brand" = false) :
    (checkBlocked html = true →
      resolveParsed pd productAsin productUrl html = .error .blocked) ∧
    (checkBlocked html = false →
      (∀ xs, getArr (jget pd "rolls") = some xs → ∀ r ∈ xs, r ≠ JVal.null) →
      ∃ R, resolveParsed pd productAsin productUrl html = .ok R) := by
  have htitle' : getTruthy (backfill pd productAsin productUrl) "title" = false := by
    rw [getTruthy, jget_backfill_ne pd _ _ "title" (by decide) (by decide) (by decide)]
    rw [getTruthy] at htitle
    exact htitle
  have hprice' : jget (backfill pd productAsin productUrl) "price" = some JVal.null := by
    rw [jget_backfill_ne pd _ _ "price" (by decide) (by decide) (by decide), hprice]
  have hbrand' : getTruthy (backfill pd productAsin productUrl) "brand" = false := by
    rw [getTruthy, jget_backfill_ne pd _ _ "brand" (by decide) (by decide) (by decide)]
    rw [getTruthy] at hbrand
    exact hbrand
  have hhpd : hasProductData (backfill pd productAsin productUrl) = false := by
    rw [hasProductData, htitle', hbrand', hprice']
    rfl
  constructor
  · intro hblock
    unfold resolveParsed
    have hcond : (!hasProductData (backfill pd productAsin productUrl) &&
        checkBlocked html) = true := by
      rw [hhpd, hblock]
      rfl
    rw [if_pos hcond]
  · intro hblock hrolls
    unfold resolveParsed
    have hcond : ¬ (!hasProductData (backfill pd productAsin productUrl) &&
        checkBlocked html) = true := by
      rw [hhpd, hblock]
      simp
    rw [if_neg hcond]
    unfold cleanStage
    have hr : jget (cleanedData (backfill pd productAsin productUrl) productAsin) "rolls" =
        some (threeWayArr (jget (backfill pd productAsin productUrl) "rolls")) := rfl
    have hrpd : jget (backfill pd productAsin productUrl) "rolls" = jget pd "rolls" :=
      jget_backfill_ne pd _ _ "rolls" (by decide) (by decide) (by decide)
    unfold normalizeRolls
    rw [hr, hrpd]
    cases hv : jget pd "rolls" with
    | none => exact ⟨_, rfl⟩
    | some v =>
        match v with
        | .null => exact ⟨_, rfl⟩
        | .bool b => exact ⟨_, rfl⟩
        | .num q => exact ⟨_, rfl⟩
        | .str s => exact ⟨_, rfl⟩
        | .obj fs => exact ⟨_, rfl⟩
        | .arr xs =>
            have hnonull : ∀ r ∈ xs, r ≠ JVal.null := hrolls xs (by rw [hv]; rfl)
            obtain ⟨ys, hys⟩ := cleanRolls_ok_of_no_null xs hnonull 0
            refine ⟨jset (cleanedData (backfill pd productAsin productUrl) productAsin)
              "rolls" (JVal.arr ys), ?_⟩
            show Except.map (fun l => jset (cleanedData (backfill pd productAsin
                productUrl) productAsin) "rolls" (JVal.arr l)) (cleanRolls 0 xs) =
              Except.ok (jset (cleanedData (backfill pd productAsin productUrl)
                productAsin) "rolls" (JVal.arr ys))
            rw [hys]
            rfl

/-- Witness for C3: with the parsed object `price: null` (title and brand
absent), HTML `continue shopping` produces the blocked error, while empty
HTML produces a successful record. -/
theorem c3_amended_witness :
    resolveParsed [("price", JVal.null)] none none "continue shopping".toList =
      .error .blocked ∧
    (∃ R, resolveParsed [("price", JVal.null)] none none [] = .ok R) :=
  ⟨(c3_amended [("price", JVal.null)] none none "continue shopping".toList
      rfl rfl rfl).1 (by decide),
   (c3_amended [("price", JVal.null)] none none [] rfl rfl rfl).2 (by decide)
      (fun xs hxs => Option.noConfusion hxs)⟩

/-!
## C4: rolls element coercion
-/

/-- Index-carrying map over a rolls array (claim-side; structural so that it
evaluates in the kernel). -/
def mapWithIdx (f : ℕ → JVal → JVal) : ℕ → List JVal → List JVal
  | _, [] => []
  | i, x :: xs => f i x :: mapWithIdx f (i + 1) xs

/-- Modelled from claim C4's words: `rollNumber` is the given number or
`index+1`; `onHand` the given number or `0`; `maxArea` the given number or
else the element's (coerced) `onHand` value; `image`/`printName` the given
value or else null; `hasReverseSide` the given boolean or `false`;
`pairedRollNumber` the given number or null. -/
def claimRollSpec (i : ℕ) (r : JVal) : JVal :=
  .obj
    [("rollNumber", numOrD (getProp r "rollNumber") (.num (idxNum i))),
     ("onHand", numOrD (getProp r "onHand") (.num 0)),
     ("maxArea", numOrD (getProp r "maxArea") (numOrD (getProp r "onHand") (.num 0))),
     ("image", presentOrNull (getProp r "image")),
     ("printName", presentOrNull (getProp r "printName")),
     ("hasReverseSide", boolOrD (getProp r "hasReverseSide") (.bool false)),
     ("pairedRollNumber", numOrD (getProp r "pairedRollNumber") .null)]

/-- Claim C4 as stated: on the success path, a non-null rolls array is
mapped element-wise by `claimRollSpec`. -/
def claimC4 : Prop :=
  ∀ (pd : JObj) (productAsin : Option String) (R : JObj) (xs : List JVal),
    cleanStage pd productAsin = .ok R →
    jget pd "rolls" = some (.arr xs) →
    jget R "rolls" = some (.arr (mapWithIdx claimRollSpec 0 xs))

/-- The record produced at the C4 counterexample input. -/
def c4RecordW : JObj :=
  [("asin", .null), ("type", .null), ("title", .null), ("price", .null),
   ("brand", .null), ("description", .null), ("size", .null),
   ("quantity", .null), ("dimensions", .null), ("rollLength", .null),
   ("rollWidth", .null), ("printNames", .arr []),
   ("rolls", .arr [.obj
      [("rollNumber", .num 1), ("onHand", .num 0), ("maxArea", .str "x"),
       ("image", .null), ("printName", .null), ("hasReverseSide", .bool false),
       ("pairedRollNumber", .null)]]),
   ("thumbnail", .null), ("images", .arr []), ("url", .null)]

/-- C4 is false on the code: for the roll `\x7b onHand: "x", image: "" \x7d`
the source sets `maxArea` to the RAW `roll.onHand || 0` — here the string
`"x"`, not the coerced numeric `onHand` (which is `0`) — and drops the
present falsy `image: ""` to null (the claim would keep a present value). -/
theorem c4_counterexample : ¬ claimC4 := by
  intro hc
  have h := hc [("rolls", JVal.arr [JVal.obj [("onHand", JVal.str "x"),
      ("image", JVal.str "")]])] none c4RecordW
    [JVal.obj [("onHand", JVal.str "x"), ("image", JVal.str "")]] (by rfl) rfl
  have h2 := congrArg (fun o => match o with
    | some (JVal.arr (JVal.obj fs :: _)) => jget fs "maxArea"
    | _ => none) h
  have h3 : JVal.str "x" = JVal.num 0 := Option.some.inj h2
  exact JVal.noConfusion h3

/-- Modelled from the amended claim: as `claimRollSpec`, except that
`maxArea` falls back to the element's RAW `onHand` value when that is
truthy and to `0` otherwise, and `image`/`printName` keep only truthy given
values (falsy given values become null). -/
def amendedRollSpec (i : ℕ) (r : JVal) : JVal :=
  .obj
    [("rollNumber", numOrD (getProp r "rollNumber") (.num (idxNum i))),
     ("onHand", numOrD (getProp r "onHand") (.num 0)),
     ("maxArea", numOrD (getProp r "maxArea") (truthyOrD (getProp r "onHand") (.num 0))),
     ("image", truthyOrD (getProp r "image") .null),
     ("printName", truthyOrD (getProp r "printName") .null),
     ("hasReverseSide", boolOrD (getProp r "hasReverseSide") (.bool false)),
     ("pairedRollNumber", numOrD (getProp r "pairedRollNumber") .null)]

theorem cleanRolls_ok_eq (xs : List JVal) :
    ∀ (i : ℕ) (ys : List JVal), cleanRolls i xs = .ok ys →
      ys = mapWithIdx amendedRollSpec i xs := by
  induction xs with
  | nil =>
      intro i ys h
      injection h with h
      rw [← h]
      rfl
  | cons r rs ih =>
      intro i ys h
      rw [show cleanRolls i (r :: rs) = (do
        let x ← cleanRoll i r
        let xs' ← cleanRolls (i + 1) rs
        pure (x :: xs')) from rfl] at h
      cases hr : cleanRoll i r with
      | error e => rw [hr] at h; exact absurd h (fun hcon => Except.noConfusion hcon)
      | ok v =>
          rw [hr] at h
          cases hrs : cleanRolls (i + 1) rs with
          | error e =>
              rw [hrs] at h
              exact absurd h (fun hcon => Except.noConfusion hcon)
          | ok ys' =>
              rw [hrs] at h
              have hys : ys = v :: ys' := by
                have : Except.ok (ε := JErr) (v :: ys') = Except.ok ys := h
                injection this with h'
                exact h'.symm
              have hv : v = amendedRollSpec i r := by
                match r, hr with
                | .bool b, hr => exact (Except.ok.inj hr).symm
                | .num q, hr => exact (Except.ok.inj hr).symm
                | .str s, hr => exact (Except.ok.inj hr).symm
                | .arr l, hr => exact (Except.ok.inj hr).symm
                | .obj fs, hr => exact (Except.ok.inj hr).symm
                | .null, hr => exact absurd hr (by simp [cleanRoll])
              rw [hys, hv, ih (i + 1) ys' hrs]
              rfl

/-- C4 amended: on the success path, each element of a non-null rolls array
is coerced by `amendedRollSpec`: `rollNumber` the given number or
`index+1`; `onHand` the given number or `0`; `maxArea` the given number, or
else the element's raw `onHand` value when truthy, or else `0` (so a truthy
non-numeric `onHand` leaks into `maxArea` as-is); `image`/`printName` the
given value when truthy, else null; `hasReverseSide` the given boolean or
`false`; `pairedRollNumber` the given number or null. -/
theorem c4_amended (pd : JObj) (productAsin : Option String) (R : JObj)
    (xs : List JVal) (hok : cleanStage pd productAsin = .ok R)
    (hrolls : jget pd "rolls" = some (.arr xs)) :
    jget R "rolls" = some (.arr (mapWithIdx amendedRollSpec 0 xs)) := by
  unfold cleanStage at hok
  rcases normalizeRolls_ok_cases hok with ⟨xs', ys, hxs', hys, hR⟩ | ⟨hnone, hR⟩
  · have hclean : jget (cleanedData pd productAsin) "rolls" =
        some (threeWayArr (jget pd "rolls")) := rfl
    rw [hclean, hrolls] at hxs'
    have hx : xs' = xs := by
      have : some xs = some xs' := hxs'
      injection this with h'
      exact h'.symm
    subst hx
    rw [hR, jget_jset_self, cleanRolls_ok_eq xs' 0 ys hys]
  · rw [show jget (cleanedData pd productAsin) "rolls" =
      some (threeWayArr (jget pd "rolls")) from rfl, hrolls] at hnone
    exact absurd hnone (by simp [getArr, threeWayArr])

/-- Witness for C4: a two-element rolls array exercising the defaults —
`\x7b\x7d` gets `rollNumber 1`, `onHand 0`, `maxArea 0`; a roll with
`onHand 22` inherits `maxArea 22` and keeps its print name. -/
theorem c4_amended_witness :
    jget (jset (cleanedData [("rolls", JVal.arr [JVal.obj [],
        JVal.obj [("onHand", JVal.num 22), ("printName", JVal.str "Dots")]])] none)
        "rolls" (JVal.arr
          [JVal.obj [("rollNumber", JVal.num 1), ("onHand", JVal.num 0),
            ("maxArea", JVal.num 0), ("image", JVal.null), ("printName", JVal.null),
            ("hasReverseSide", JVal.bool false), ("pairedRollNumber", JVal.null)],
           JVal.obj [("rollNumber", JVal.num 2), ("onHand", JVal.num 22),
            ("maxArea", JVal.num 22), ("image", JVal.null),
            ("printName", JVal.str "Dots"), ("hasReverseSide", JVal.bool false),
            ("pairedRollNumber", JVal.null)]]))
      "rolls" =
    some (JVal.arr (mapWithIdx amendedRollSpec 0 [JVal.obj [],
      JVal.obj [("onHand", JVal.num 22), ("printName", JVal.str "Dots")]])) :=
  c4_amended [("rolls", JVal.arr [JVal.obj [],
      JVal.obj [("onHand", JVal.num 22), ("printName", JVal.str "Dots")]])] none
    _ _ (by rfl) rfl

/-!
## C10: shape of the returned record
-/

/-- The 16 schema keys, in the order of the `cleanedData` literal. -/
def schemaKeys : List String :=
  ["asin", "type", "title", "price", "brand", "description", "size",
   "quantity", "dimensions", "rollLength", "rollWidth", "printNames",
   "rolls", "thumbnail", "images", "url"]

/-- A JS value that is null, a boolean, a number, a string, or an array
(claim C10's list of permitted top-level value kinds). -/
def isScalarOrArr : JVal → Bool
  | .obj _ => false
  | _ => true

/-- Claim C10 as stated: every successfully returned record has exactly the
16 schema keys and every value is null, a boolean, a number, a string, or
an array. -/
def claimC10 : Prop :=
  ∀ (pd : JObj) (productAsin productUrl : Option String) (html : List Char)
    (R : JObj), resolveParsed pd productAsin productUrl html = .ok R →
    R.map Prod.fst = schemaKeys ∧ ∀ kv ∈ R, isScalarOrArr kv.2 = true

/-- The record produced at the C10 counterexample input. -/
def c10RecordW : JObj :=
  [("asin", .obj []), ("type", .null), ("title", .null), ("price", .null),
   ("brand", .null), ("description", .null), ("size", .null),
   ("quantity", .null), ("dimensions", .null), ("rollLength", .null),
   ("rollWidth", .null), ("printNames", .arr []), ("rolls", .arr []),
   ("thumbnail", .null), ("images", .arr []), ("url", .null)]

/-- C10 is false on the code as to value kinds: a parsed object whose `asin`
is a (truthy) JSON object passes through `productData.asin || null`
unchanged, so the returned record binds `asin` to an object — not to any of
null/boolean/number/string/array. -/
theorem c10_counterexample : ¬ claimC10 := by
  intro hc
  have h := (hc [("asin", JVal.obj [])] none none [] c10RecordW (by rfl)).2
    ("asin", JVal.obj []) (List.mem_cons_self _ _)
  exact absurd h (by decide)

theorem jset_map_fst_of_mem {α : Type} (o : List (String × α)) (k : String) (v : α)
    (h : (jget o k).isSome) : (jset o k v).map Prod.fst = o.map Prod.fst := by
  induction o with
  | nil => simp [jget] at h
  | cons hd tl ih =>
      obtain ⟨k0, w⟩ := hd
      by_cases hk : k = k0
      · simp [jset, hk]
      · rw [jget] at h
        rw [if_neg hk] at h
        simp only [jset, if_neg hk, List.map_cons]
        rw [ih h]

/-- C10 amended: every successfully returned record has exactly the 16
schema keys, in the order of the source's object literal, each bound to a
defined JSON value — but a value may be of any JSON type, objects included
(a truthy object supplied for a `||`-guarded field is kept as-is). -/
theorem c10_amended (pd : JObj) (productAsin productUrl : Option String)
    (html : List Char) (R : JObj)
    (hok : resolveParsed pd productAsin productUrl html = .ok R) :
    R.map Prod.fst = schemaKeys := by
  unfold resolveParsed at hok
  by_cases hb : (!hasProductData (backfill pd productAsin productUrl) &&
      checkBlocked html) = true
  · rw [if_pos hb] at hok
    exact absurd hok (by simp)
  · rw [if_neg hb] at hok
    unfold cleanStage at hok
    rcases normalizeRolls_ok_cases hok with ⟨xs, ys, hxs, hys, hR⟩ | ⟨_, hR⟩
    · have hsome : (jget (cleanedData (backfill pd productAsin productUrl)
          productAsin) "rolls").isSome = true := rfl
      rw [hR, jset_map_fst_of_mem _ _ _ hsome]
      rfl
    · rw [hR]
      rfl

/-- Witness for C10: the record returned for the parsed object
`\x7b asin: \x7b\x7d \x7d` carries exactly the 16 schema keys. -/
theorem c10_amended_witness : c10RecordW.map Prod.fst = schemaKeys :=
  c10_amended [("asin", JVal.obj [])] none none [] c10RecordW (by rfl)

/-!
## C5: idempotence of the normalization stage
-/

theorem truthyOrD_self (d : JVal) : truthyOrD (some d) d = d := by
  unfold truthyOrD
  exact ite_self d

theorem truthyOrD_absorb (x : Option JVal) (d : JVal) :
    truthyOrD (some (truthyOrD x d)) d = truthyOrD x d := by
  cases x with
  | none => exact truthyOrD_self d
  | some v =>
      by_cases h : jsTruthy v = true
      · simp [truthyOrD, h]
      · have h1 : truthyOrD (some v) d = d := by simp [truthyOrD, h]
        rw [h1, truthyOrD_self]

theorem threeWayArr_absorb (x : Option JVal) :
    threeWayArr (some (threeWayArr x)) = threeWayArr x := by
  match x with
  | some (.arr xs) => rfl
  | some .null => rfl
  | some (.bool b) => rfl
  | some (.num q) => rfl
  | some (.str s) => rfl
  | some (.obj fs) => rfl
  | none => rfl

theorem arrOrEmpty_absorb (x : Option JVal) :
    arrOrEmpty (some (arrOrEmpty x)) = arrOrEmpty x := by
  match x with
  | some (.arr xs) => rfl
  | some .null => rfl
  | some (.bool b) => rfl
  | some (.num q) => rfl
  | some (.str s) => rfl
  | some (.obj fs) => rfl
  | none => rfl

theorem numOrD_absorb_num (x : Option JVal) (a : ℚ) (d : JVal) :
    numOrD (some (numOrD x (.num a))) d = numOrD x (.num a) := by
  match x with
  | some (.arr xs) => rfl
  | some .null => rfl
  | some (.bool b) => rfl
  | some (.num q) => rfl
  | some (.str s) => rfl
  | some (.obj fs) => rfl
  | none => rfl

theorem numOrD_absorb_null (x : Option JVal) :
    numOrD (some (numOrD x .null)) .null = numOrD x .null := by
  match x with
  | some (.arr xs) => rfl
  | some .null => rfl
  | some (.bool b) => rfl
  | some (.num q) => rfl
  | some (.str s) => rfl
  | some (.obj fs) => rfl
  | none => rfl

theorem boolOrD_absorb (x : Option JVal) (b : Bool) (d : JVal) :
    boolOrD (some (boolOrD x (.bool b))) d = boolOrD x (.bool b) := by
  match x with
  | some (.arr xs) => rfl
  | some .null => rfl
  | some (.bool c) => rfl
  | some (.num q) => rfl
  | some (.str s) => rfl
  | some (.obj fs) => rfl
  | none => rfl

/-- A record in the shape produced by the `cleanedData` literal, with every
field a fixed point of its own coercion, is a fixed point of `cleanedData`. -/
theorem cleanedData_fix (pa : Option String)
    (v1 v2 v3 v4 v5 v6 v7 v8 v9 v10 v11 v12 v13 v14 v15 v16 : JVal)
    (h1 : truthyOrD (some v1) JVal.null = v1)
    (h2 : truthyOrD (some v2) JVal.null = v2)
    (h3 : truthyOrD (some v3) JVal.null = v3)
    (h5 : truthyOrD (some v5) JVal.null = v5)
    (h6 : truthyOrD (some v6) JVal.null = v6)
    (h7 : truthyOrD (some v7) JVal.null = v7)
    (h9 : truthyOrD (some v9) JVal.null = v9)
    (h12 : threeWayArr (some v12) = v12)
    (h13 : threeWayArr (some v13) = v13)
    (h14 : truthyOrD (some v14) JVal.null = v14)
    (h15 : arrOrEmpty (some v15) = v15)
    (h16 : truthyOrD (some v16) (urlFallback pa) = v16) :
    cleanedData [("asin", v1), ("type", v2), ("title", v3), ("price", v4),
      ("brand", v5), ("description", v6), ("size", v7), ("quantity", v8),
      ("dimensions", v9), ("rollLength", v10), ("rollWidth", v11),
      ("printNames", v12), ("rolls", v13), ("thumbnail", v14),
      ("images", v15), ("url", v16)] pa =
    [("asin", v1), ("type", v2), ("title", v3), ("price", v4),
      ("brand", v5), ("description", v6), ("size", v7), ("quantity", v8),
      ("dimensions", v9), ("rollLength", v10), ("rollWidth", v11),
      ("printNames", v12), ("rolls", v13), ("thumbnail", v14),
      ("images", v15), ("url", v16)] := by
  show [("asin", truthyOrD (some v1) JVal.null),
    ("type", truthyOrD (some v2) JVal.null),
    ("title", truthyOrD (some v3) JVal.null), ("price", v4),
    ("brand", truthyOrD (some v5) JVal.null),
    ("description", truthyOrD (some v6) JVal.null),
    ("size", truthyOrD (some v7) JVal.null), ("quantity", v8),
    ("dimensions", truthyOrD (some v9) JVal.null), ("rollLength", v10),
    ("rollWidth", v11), ("printNames", threeWayArr (some v12)),
    ("rolls", threeWayArr (some v13)),
    ("thumbnail", truthyOrD (some v14) JVal.null),
    ("images", arrOrEmpty (some v15)),
    ("url", truthyOrD (some v16) (urlFallback pa))] = _
  rw [h1, h2, h3, h5, h6, h7, h9, h12, h13, h14, h15, h16]

theorem jset_of_jget_eq {α : Type} (o : List (String × α)) (k : String) (v : α)
    (h : jget o k = some v) : jset o k v = o := by
  induction o with
  | nil => simp [jget] at h
  | cons hd tl ih =>
      obtain ⟨k0, w⟩ := hd
      by_cases hk : k = k0
      · subst hk
        rw [jget, if_pos rfl] at h
        injection h with h
        simp [jset, h]
      · rw [jget, if_neg hk] at h
        simp [jset, hk, ih h]

theorem cleanRoll_ok_eq {i : ℕ} {r v : JVal} (h : cleanRoll i r = .ok v) :
    v = amendedRollSpec i r := by
  match r, h with
  | .bool b, h => exact (Except.ok.inj h).symm
  | .num q, h => exact (Except.ok.inj h).symm
  | .str s, h => exact (Except.ok.inj h).symm
  | .arr l, h => exact (Except.ok.inj h).symm
  | .obj fs, h => exact (Except.ok.inj h).symm
  | .null, h => exact absurd h (fun hcon => Except.noConfusion hcon)

/-- A coerced roll whose `maxArea` is numeric is a fixed point of the roll
coercion. -/
theorem cleanRoll_idem (i : ℕ) (r v : JVal) (h : cleanRoll i r = .ok v)
    (hq : ∃ q : ℚ, getProp v "maxArea" = some (.num q)) :
    cleanRoll i v = .ok v := by
  have hv : v = amendedRollSpec i r := cleanRoll_ok_eq h
  subst hv
  obtain ⟨q, hq⟩ := hq
  have hmax : numOrD (getProp r "maxArea") (truthyOrD (getProp r "onHand")
      (.num 0)) = JVal.num q := Option.some.inj hq
  show Except.ok (JVal.obj
    [("rollNumber", numOrD (some (numOrD (getProp r "rollNumber")
        (.num (idxNum i)))) (.num (idxNum i))),
     ("onHand", numOrD (some (numOrD (getProp r "onHand") (.num 0))) (.num 0)),
     ("maxArea", numOrD (some (numOrD (getProp r "maxArea")
        (truthyOrD (getProp r "onHand") (.num 0))))
        (truthyOrD (some (numOrD (getProp r "onHand") (.num 0))) (.num 0))),
     ("image", truthyOrD (some (truthyOrD (getProp r "image") .null)) .null),
     ("printName", truthyOrD (some (truthyOrD (getProp r "printName") .null)) .null),
     ("hasReverseSide", boolOrD (some (boolOrD (getProp r "hasReverseSide")
        (.bool false))) (.bool false)),
     ("pairedRollNumber", numOrD (some (numOrD (getProp r "pairedRollNumber")
        JVal.null)) JVal.null)]) = Except.ok (amendedRollSpec i r)
  rw [hmax]
  unfold amendedRollSpec
  rw [hmax]
  rw [numOrD_absorb_num, numOrD_absorb_num, numOrD_absorb_null,
    boolOrD_absorb, truthyOrD_absorb, truthyOrD_absorb]
  rfl

theorem cleanRolls_idem (xs : List JVal) : ∀ (i : ℕ) (ys : List JVal),
    cleanRolls i xs = .ok ys →
    (∀ v ∈ ys, ∃ q : ℚ, getProp v "maxArea" = some (.num q)) →
    cleanRolls i ys = .ok ys := by
  induction xs with
  | nil =>
      intro i ys h hq
      injection h with h
      rw [← h]
      rfl
  | cons r rs ih =>
      intro i ys h hq
      rw [show cleanRolls i (r :: rs) = (do
        let x ← cleanRoll i r
        let xs' ← cleanRolls (i + 1) rs
        pure (x :: xs')) from rfl] at h
      cases hr : cleanRoll i r with
      | error e => rw [hr] at h; exact absurd h (fun hcon => Except.noConfusion hcon)
      | ok v =>
          rw [hr] at h
          cases hrs : cleanRolls (i + 1) rs with
          | error e =>
              rw [hrs] at h
              exact absurd h (fun hcon => Except.noConfusion hcon)
          | ok ys' =>
              rw [hrs] at h
              have hys : ys = v :: ys' := by
                have hh : Except.ok (ε := JErr) (v :: ys') = Except.ok ys := h
                injection hh with h'
                exact h'.symm
              subst hys
              have hidem := cleanRoll_idem i r v hr
                (hq v (List.mem_cons_self _ _))
              have hrest := ih (i + 1) ys' hrs
                (fun w hw => hq w (List.mem_cons_of_mem _ hw))
              show (do
                let x ← cleanRoll i v
                let xs' ← cleanRolls (i + 1) ys'
                pure (x :: xs')) = Except.ok (v :: ys')
              rw [hidem, hrest]
              rfl

/-- Claim C5 as stated: re-running the normalization stage (lines 304-337)
on its own successful output yields the identical record. -/
def claimC5 : Prop :=
  ∀ (pd : JObj) (productAsin : Option String) (R : JObj),
    cleanStage pd productAsin = .ok R → cleanStage R productAsin = .ok R

/-- The record produced at the C5 counterexample input. -/
def c5RecordW : JObj :=
  [("asin", .null), ("type", .null), ("title", .null), ("price", .null),
   ("brand", .null), ("description", .null), ("size", .null),
   ("quantity", .null), ("dimensions", .null), ("rollLength", .null),
   ("rollWidth", .null), ("printNames", .arr []),
   ("rolls", .arr [.obj
      [("rollNumber", .num 1), ("onHand", .num 0), ("maxArea", .str "x"),
       ("image", .null), ("printName", .null), ("hasReverseSide", .bool false),
       ("pairedRollNumber", .null)]]),
   ("thumbnail", .null), ("images", .arr []), ("url", .null)]

/-- C5 is false on the code: normalizing the parsed object whose single roll
has the truthy non-numeric `onHand: "x"` produces a record whose roll has
`maxArea = "x"` and `onHand = 0`; normalizing that record again coerces
`maxArea` to `0` (the raw fallback `roll.onHand || 0` now reads the numeric
`0`), so the second pass changes the record. -/
theorem c5_counterexample : ¬ claimC5 := by
  intro hc
  have h := hc [("rolls", JVal.arr [JVal.obj [("onHand", JVal.str "x")]])] none
    c5RecordW (by rfl)
  have h2 := congrArg (fun e => match e with
    | Except.ok o => (match jget o "rolls" with
        | some (JVal.arr (JVal.obj fs :: _)) => jget fs "maxArea"
        | _ => none)
    | Except.error _ => none) h
  have h3 : JVal.num 0 = JVal.str "x" := Option.some.inj h2
  exact JVal.noConfusion h3

/-- C5 amended: the normalization stage is idempotent on every successful
output whose rolls all carry a NUMERIC `maxArea` (equivalently, whenever no
roll of the original parsed object had a truthy non-numeric `onHand`, whose
raw value leaks into `maxArea` on the first pass and collapses to `0` on
the second). -/
theorem c5_amended (pd : JObj) (pa : Option String) (R : JObj)
    (hok : cleanStage pd pa = .ok R)
    (hnum : ∀ xs, getArr (jget R "rolls") = some xs →
      ∀ r ∈ xs, ∃ q : ℚ, getProp r "maxArea" = some (.num q)) :
    cleanStage R pa = .ok R := by
  unfold cleanStage at hok ⊢
  rcases normalizeRolls_ok_cases hok with ⟨xs, ys, hxs, hys, hR⟩ | ⟨hnone, hR⟩
  · subst hR
    have hCd : cleanedData (jset (cleanedData pd pa) "rolls" (JVal.arr ys)) pa =
        jset (cleanedData pd pa) "rolls" (JVal.arr ys) :=
      cleanedData_fix pa _ _ _ _ _ _ _ _ _ _ _ _ _ _ _ _
        (truthyOrD_absorb _ _) (truthyOrD_absorb _ _) (truthyOrD_absorb _ _)
        (truthyOrD_absorb _ _) (truthyOrD_absorb _ _) (truthyOrD_absorb _ _)
        (truthyOrD_absorb _ _) (threeWayArr_absorb _) rfl
        (truthyOrD_absorb _ _) (arrOrEmpty_absorb _) (truthyOrD_absorb _ _)
    rw [hCd]
    have hget : jget (jset (cleanedData pd pa) "rolls" (JVal.arr ys)) "rolls" =
        some (JVal.arr ys) := jget_jset_self _ _ _
    have hga : getArr (jget (jset (cleanedData pd pa) "rolls" (JVal.arr ys))
        "rolls") = some ys := by rw [hget]; rfl
    have hidem : cleanRolls 0 ys = .ok ys :=
      cleanRolls_idem xs 0 ys hys (hnum ys hga)
    unfold normalizeRolls
    rw [hga]
    show Except.map (fun l => jset (jset (cleanedData pd pa) "rolls" (JVal.arr ys))
      "rolls" (JVal.arr l)) (cleanRolls 0 ys) = _
    rw [hidem]
    show Except.ok (jset (jset (cleanedData pd pa) "rolls" (JVal.arr ys))
      "rolls" (JVal.arr ys)) = _
    rw [jset_of_jget_eq _ _ _ hget]
  · subst hR
    have hCd : cleanedData (cleanedData pd pa) pa = cleanedData pd pa :=
      cleanedData_fix pa _ _ _ _ _ _ _ _ _ _ _ _ _ _ _ _
        (truthyOrD_absorb _ _) (truthyOrD_absorb _ _) (truthyOrD_absorb _ _)
        (truthyOrD_absorb _ _) (truthyOrD_absorb _ _) (truthyOrD_absorb _ _)
        (truthyOrD_absorb _ _) (threeWayArr_absorb _) (threeWayArr_absorb _)
        (truthyOrD_absorb _ _) (arrOrEmpty_absorb _) (truthyOrD_absorb _ _)
    rw [hCd]
    unfold normalizeRolls
    rw [hnone]

/-- The already-normalized record used in the C5 witness. -/
def c5IdemW : JObj :=
  [("asin", .null), ("type", .null), ("title", .null), ("price", .null),
   ("brand", .null), ("description", .null), ("size", .null),
   ("quantity", .null), ("dimensions", .null), ("rollLength", .null),
   ("rollWidth", .null), ("printNames", .arr []),
   ("rolls", .arr [.obj
      [("rollNumber", .num 1), ("onHand", .num 22), ("maxArea", .num 22),
       ("image", .null), ("printName", .null), ("hasReverseSide", .bool false),
       ("pairedRollNumber", .null)]]),
   ("thumbnail", .null), ("images", .arr []), ("url", .null)]

/-- Witness for C5: the record normalized from a roll with numeric
`onHand: 22` (so `maxArea = 22` is numeric) is a fixed point of the
normalization stage. -/
theorem c5_amended_witness : cleanStage c5IdemW none = .ok c5IdemW :=
  c5_amended [("rolls", JVal.arr [JVal.obj [("onHand", JVal.num 22)]])] none
    c5IdemW (by rfl)
    (fun xs hxs => by
      have h1 : ([JVal.obj
        [("rollNumber", JVal.num 1), ("onHand", JVal.num 22),
         ("maxArea", JVal.num 22), ("image", JVal.null),
         ("printName", JVal.null), ("hasReverseSide", JVal.bool false),
         ("pairedRollNumber", JVal.null)]] : List JVal) = xs :=
        Option.some.inj hxs
      intro r hr
      rw [← h1] at hr
      rcases List.mem_singleton.mp hr with rfl
      exact ⟨22, rfl⟩)

end AmazonParser
